import Mathlib

/-!
Verification development for the MCP-DB-GPT repository.

The Python sources (`mcp_mysql_server/run_server.py`, `client.py`,
`LLM/api.py`) are shallowly embedded here.  Python strings are modelled as
`List Char` (`Str`); Python exceptions as `Except`; the live database as
explicit oracle parameters (a table-name → column-list map for `DESCRIBE`, a
connection step and an execution step that either succeed or raise); the
process-wide query log as an explicit `List LogEntry` threaded through the
functions that touch it.  The few regular expressions used by the source are
hand-compiled to executable scanning functions whose semantics, on the inputs
the theorems use, coincide with Python `re` (each is documented at its
definition).
-/

namespace MCPDB

/-- Python strings are modelled as lists of characters. -/
abbrev Str := List Char

/-- Whitespace as recognized by Python `str.split()` / `str.strip()` / `\s`
(restricted to the ASCII whitespace characters, which are the only ones the
repository's inputs contain). -/
def isWs (c : Char) : Bool :=
  c == ' ' || c == '\t' || c == '\n' || c == '\r'

/-- A regex word character (`\w` = `[A-Za-z0-9_]`, ASCII). -/
def isWordChar (c : Char) : Bool :=
  c.isAlphanum || c == '_'

/-- Lower-casing a Python string (`str.lower`, ASCII fragment). -/
def lowerStr (s : Str) : Str := s.map Char.toLower

/-- Length of the leading whitespace run of `s`. -/
def countWs (s : Str) : Nat := (s.takeWhile isWs).length

/-- Python `str.strip()`: remove leading and trailing whitespace. -/
def pyStrip (s : Str) : Str :=
  ((s.dropWhile isWs).reverse.dropWhile isWs).reverse

/-- The call `findSplit sub s` finds the first occurrence of `sub` in `s` and returns
the part before it together with the part after it; `none` when `sub` does
not occur.  This is the workhorse behind the model of Python's `in`,
`str.split(sep)` and the comment-stripping substitutions. -/
def findSplit (sub : Str) : Str → Option (Str × Str)
  | [] => if sub = [] then some ([], []) else none
  | c :: rest =>
      if sub.isPrefixOf (c :: rest) then some ([], (c :: rest).drop sub.length)
      else (findSplit sub rest).map (fun p => (c :: p.1, p.2))

/-- Python `sub in s` (substring containment). -/
def containsSub (sub s : Str) : Bool := (findSplit sub s).isSome

/-- One fuel-measured pass of Python `str.split(sep)` for a non-empty `sep`.
Each recursive step consumes at least `sep.length ≥ 1` characters of the
remainder, so fuel `s.length + 1` (supplied by `splitOnSub`) never runs out. -/
def splitOnSubGo (sep : Str) : Nat → Str → List Str
  | 0, s => [s]
  | fuel + 1, s =>
      match findSplit sep s with
      | none => [s]
      | some (pre, rest) => pre :: splitOnSubGo sep fuel rest

/-- Python `str.split(sep)` for the non-empty separators the source uses
(`','`, `' as '`, `'.'`, `';'`). -/
def splitOnSub (sep s : Str) : List Str := splitOnSubGo sep (s.length + 1) s

/-- Python `str.split()` (split on whitespace runs, dropping empty pieces),
written with an accumulator holding the reversed current token. -/
def pySplitGo : Str → Str → List Str
  | acc, [] => if acc = [] then [] else [acc.reverse]
  | acc, c :: rest =>
      if isWs c then
        if acc = [] then pySplitGo [] rest else acc.reverse :: pySplitGo [] rest
      else pySplitGo (c :: acc) rest

/-- Python `str.split()`. -/
def pySplit (s : Str) : List Str := pySplitGo [] s

/-- Python `' '.join(tokens)`. -/
def joinSp : List Str → Str
  | [] => []
  | [t] => t
  | t :: u :: ts => t ++ ' ' :: joinSp (u :: ts)

/-- Line 194 of `run_server.py`: `sql = ' '.join(sql.split()).lower()`. -/
def normLower (s : Str) : Str := lowerStr (joinSp (pySplit s))

/-- Python `str.strip('`')`: remove backquotes from both ends. -/
def stripBackticks (s : Str) : Str :=
  ((s.dropWhile (· == '`')).reverse.dropWhile (· == '`')).reverse

/-! ### Hand-compiled regular expressions

The validator uses four `re` patterns.  Each is modelled by an executable
scanner.  Python's scan is leftmost-first: the pattern is tried at every
start position from the left, and the first position admitting a match wins;
`scanFirst` reproduces this. -/

/-- Try a matcher at every suffix of `s`, left to right, returning the first
success (Python `re.search` / first element of `re.findall`). -/
def scanFirst (f : Str → Option α) : Str → Option α
  | [] => f []
  | c :: rest =>
      match f (c :: rest) with
      | some r => some r
      | none => scanFirst f rest

/-- Whether the pattern `\b<field>\b` (line 215 of `run_server.py`,
`fr'\b{field}\b'`) compiles under Python `re` with `field` spliced in as raw
pattern text.  The model under-approximates: it answers `true` exactly for
fields made of word characters — for which the spliced pattern certainly
compiles and means a word-bounded literal search — and `false` otherwise.
The theorems instantiate the `false` side only at the field `"("`, whose
pattern `\b(\b` indeed raises `re.error` (unterminated subpattern). -/
def regexFieldOk (field : Str) : Bool := field.all isWordChar

/-- Word-boundary test used by `wbSearch`: a `\b` holds between `prev` and a
word character when `prev` is the start of the string or a non-word
character. -/
def boundaryBefore : Option Char → Bool
  | none => true
  | some c => !isWordChar c

/-- A `\b` after the end of the matched field: the remainder is empty or
starts with a non-word character. -/
def boundaryAfter : Str → Bool
  | [] => true
  | c :: _ => !isWordChar c

/-- Does `\b<field>\b` match at the very start of `s`, with `prev` the
character just before `s` (none at string start)?  Faithful for non-empty
fields made of word characters. -/
def wbHere (field : Str) (prev : Option Char) (s : Str) : Bool :=
  field.isPrefixOf s && boundaryBefore prev && boundaryAfter (s.drop field.length)

/-- Scan for `\b<field>\b` keeping track of the previous character. -/
def wbGo (field : Str) : Option Char → Str → Bool
  | prev, [] => wbHere field prev []
  | prev, c :: rest => wbHere field prev (c :: rest) || wbGo field (some c) rest

/-- Python `re.search(fr'\b{field}\b', s) is not None`, for fields made of
word characters (the quick sensitive-field scan on line 216). -/
def wbSearch (field s : Str) : Bool := wbGo field none s

/-- Does `\s+from` match at the start of `s`?  (`\s+` is greedy, but `from`
starts with a non-whitespace character, so only the maximal whitespace run
can be followed by the literal.) -/
def wsThenFrom (s : Str) : Bool :=
  decide (0 < countWs s) && ("from".toList.isPrefixOf (s.drop (countWs s)))

/-- Lazy group of `select\s+(.*?)\s+from`: the shortest prefix of `s` that is
followed by `\s+from`; `none` if no split point works. -/
def lazyCapture : Str → Option Str
  | [] => if wsThenFrom [] then some [] else none
  | c :: rest =>
      if wsThenFrom (c :: rest) then some []
      else (lazyCapture rest).map (c :: ·)

/-- Backtracking over the first `\s+` of `select\s+(.*?)\s+from`: Python
tries the maximal whitespace run first and shrinks it on failure (only
relevant when comment removal has left multiple adjacent spaces). -/
def selWsGo (s : Str) : Nat → Option Str
  | 0 => none
  | n + 1 =>
      match lazyCapture (s.drop (n + 1)) with
      | some cap => some cap
      | none => selWsGo s n

/-- Match `\s+(.*?)\s+from` against `s` (the text right after a literal
`select`), returning the group. -/
def matchAfterSelect (s : Str) : Option Str := selWsGo s (countWs s)

/-- Try `select\s+(.*?)\s+from` at the start of `s`. -/
def matchSelectHere (s : Str) : Option Str :=
  if "select".toList.isPrefixOf s then matchAfterSelect (s.drop 6) else none

/-- The group of the first match of `re.findall(r'select\s+(.*?)\s+from', sql)`
(line 226; only `matches[0]` is ever used, so the first match suffices). -/
def firstSelectCapture (s : Str) : Option Str := scanFirst matchSelectHere s

/-- Try `from\s+([^\s;]+)` at the start of `s` (table-name extraction,
line 242). -/
def matchFromHere (s : Str) : Option Str :=
  if "from".toList.isPrefixOf s then
    let r := s.drop 4
    let n := countWs r
    if 0 < n then
      let cap := (r.drop n).takeWhile (fun c => !isWs c && c != ';')
      if cap = [] then none else some cap
    else none
  else none

/-- The group of `re.search(r'from\s+([^\s;]+)', sql)`. -/
def firstFromTable (s : Str) : Option Str := scanFirst matchFromHere s

/-- Model of `re.sub(r'--.*$', '', sql, flags=re.MULTILINE)` (line 221).  The
text it is applied to has already been whitespace-normalized, hence contains
no newline, so the substitution deletes everything from the first `--` on. -/
def cutLineComment (s : Str) : Str :=
  match findSplit "--".toList s with
  | none => s
  | some (pre, _) => pre

/-- One fuel step of `re.sub(r'/\*.*?\*/', '', sql, flags=re.DOTALL)`
(line 222): repeatedly delete the leftmost `/* ... */` span with the lazily
shortest body.  Each step removes at least two characters, so fuel
`s.length` (supplied by `removeBlockComments`) never runs out. -/
def removeBlockGo : Nat → Str → Str
  | 0, s => s
  | fuel + 1, s =>
      match findSplit "/*".toList s with
      | none => s
      | some (pre, rest) =>
          match findSplit "*/".toList rest with
          | none => s
          | some (_, rest2) => pre ++ removeBlockGo fuel rest2

/-- Full model of the block-comment substitution. -/
def removeBlockComments (s : Str) : Str := removeBlockGo s.length s

/-! ### Sensitive-field configuration (`get_sensitive_fields`, lines 161-180) -/

/-- The `default_fields` local of `get_sensitive_fields`.  Note that the
source computes this list and then does not include it in the returned
value. -/
def default_fields : List Str :=
  ["password", "pwd", "passwd",
   "salary", "income",
   "ssn", "social_security",
   "credit_card", "bank_account",
   "id_number", "idcard",
   "phone", "mobile",
   "address", "email"].map String.toList

/-- Model of `get_sensitive_fields()`.  The argument is
`os.environ.get('SENSITIVE_FIELDS')` (`none` when the variable is absent;
Python then substitutes the default `''`).  Mirrors the source exactly:
split on `';'`, strip and lower-case each piece, drop pieces that are empty
after stripping — and return only the environment-derived list, leaving
`default_fields` unused. -/
def get_sensitive_fields (envVal : Option Str) : List Str :=
  let env_fields := splitOnSub [';'] (envVal.getD [])
  (env_fields.filter (fun f => pyStrip f ≠ [])).map (fun f => lowerStr (pyStrip f))

/-! ### The safety validator (`is_safe_query`, lines 183-276) -/

instance {ε : Type u} {α : Type v} [DecidableEq ε] [DecidableEq α] : DecidableEq (Except ε α)
  | .error a, .error b =>
      if h : a = b then isTrue (h ▸ rfl) else isFalse fun g => h (Except.error.inj g)
  | .error _, .ok _ => isFalse fun g => Except.noConfusion g
  | .ok _, .error _ => isFalse fun g => Except.noConfusion g
  | .ok a, .ok b =>
      if h : a = b then isTrue (h ▸ rfl) else isFalse fun g => h (Except.ok.inj g)

/-- The Python exceptions the model distinguishes. -/
inductive PyExn where
  /-- the `re.error` raised while compiling `\b<field>\b` on line 216. -/
  | reError : PyExn
  /-- an exception raised by the database driver, carrying its message. -/
  | dbError : Str → PyExn
deriving DecidableEq, Repr

/-- The `unsafe_keywords` blocklist of line 205. -/
def dangerousKeywords : List Str :=
  ["insert", "update", "delete", "drop", "alter", "truncate", "create"].map String.toList

/-- The keyword test of line 207:
`any(f" {keyword} " in f" {sql} " for keyword in unsafe_keywords)`. -/
def keywordHit (sql : Str) : Bool :=
  dangerousKeywords.any (fun kw => containsSub (' ' :: (kw ++ [' '])) (' ' :: (sql ++ [' '])))

/-- The quick sensitive-field loop of lines 214-217: for each configured
field, compile `\b{field}\b` (which may raise `re.error` — this happens
outside the `try` block, so the exception escapes the validator) and search
the normalized SQL; a hit means reject. -/
def fastFieldScan : List Str → Str → Except PyExn Bool
  | [], _ => .ok false
  | f :: fs, sql =>
      if regexFieldOk f then
        if wbSearch f sql then .ok true else fastFieldScan fs sql
      else .error .reError

/-- A database `DESCRIBE` oracle: for a table name, the list of its column
names (`none` models the driver raising, e.g. an unknown table). -/
abbrev DescOracle := Str → Option (List Str)

/-- Per-projected-field check of lines 233-270.  The input `fRaw` is one
comma-piece of the captured projection list, already stripped and
lower-cased (line 230).  Returns `true` when the loop body would `return
False` for this field — including the case where the `SELECT *` branch
raises inside the `try` (unknown table / connection failure), which the
`except` on line 271 also converts to `False`. -/
def projFieldRejects (fields : List Str) (σ : DescOracle) (sqlClean : Str) (fRaw : Str) : Bool :=
  let f1 := pyStrip ((splitOnSub " as ".toList fRaw).headD [])
  let f2 := pyStrip ((splitOnSub ['.'] f1).getLastD [])
  if f2 = ['*'] then
    match firstFromTable sqlClean with
    | none => false
    | some tn =>
        match σ (stripBackticks tn) with
        | none => true
        | some cols => cols.any (fun col => decide (lowerStr col ∈ fields))
  else if f2 ∈ fields then true
  else fields.any (fun sf => containsSub ('(' :: sf) f2 || containsSub (',' :: sf) f2)

/-- The `try` block of lines 219-270: strip comments, capture the projection
list of the first `select ... from`, and test each projected field.  Returns
`true` when the block would `return False` (rejection, or a caught
exception). -/
def tryBlockRejects (fields : List Str) (σ : DescOracle) (sql : Str) : Bool :=
  let sqlClean := removeBlockComments (cutLineComment sql)
  match firstSelectCapture sqlClean with
  | none => false
  | some cap =>
      let selected := (splitOnSub [','] cap).map (fun f => lowerStr (pyStrip f))
      selected.any (projFieldRejects fields σ sqlClean)

/-- Model of `is_safe_query(sql)` (lines 183-276), parameterized by the
configured sensitive-field list and the `DESCRIBE` oracle.  `Except.error`
models an exception escaping the function. -/
def is_safe_query (fields : List Str) (σ : DescOracle) (sqlRaw : Str) : Except PyExn Bool :=
  let sql := normLower sqlRaw
  if !("select".toList.isPrefixOf sql || "with".toList.isPrefixOf sql) then .ok false
  else if "with".toList.isPrefixOf sql && !containsSub " select ".toList sql then .ok false
  else if keywordHit sql then .ok false
  else
    match fastFieldScan fields sql with
    | .error e => .error e
    | .ok true => .ok false
    | .ok false => .ok (!tryBlockRejects fields σ sql)

/-! ### The injection heuristic (`is_sql_injection`, lines 278-304) -/

/-- The `injection_keywords` list of lines 284-289.  The first entry is the
single-quote character, spelled by its code point 39. -/
def injection_keywords : List Str :=
  [Char.ofNat 39] ::
  (["\"", "--", "/*", "*/", "xp_", "exec", "sp_",
    "union select", "drop table", "truncate table",
    "insert into", "update set", "delete from", "alter table",
    "create table", "shutdown", "waitfor delay"].map String.toList)

/-- Scan a previous-character-aware matcher over every position of the
string (for the `\b`-anchored tautology patterns). -/
def scanWithPrev (f : Option Char → Str → Bool) : Option Char → Str → Bool
  | prev, [] => f prev []
  | prev, c :: rest => f prev (c :: rest) || scanWithPrev f (some c) rest

/-- Tail `\s+\d+\s*=\s*\d+` of the pattern on line 298.  The character
classes of adjacent greedy pieces are disjoint, so maximal munch is exact. -/
def tautNumTail (s : Str) : Bool :=
  decide (0 < countWs s) &&
  (let r := s.drop (countWs s)
   let d := r.takeWhile Char.isDigit
   decide (d ≠ []) &&
   (let r2 := r.drop d.length
    match r2.drop (countWs r2) with
    | '=' :: r4 =>
        let r5 := r4.drop (countWs r4)
        decide (r5.takeWhile Char.isDigit ≠ [])
    | _ => false))

/-- Tail `\s+\w+\s*=\s*\w+\s*--` of the pattern on line 301. -/
def tautCmtTail (s : Str) : Bool :=
  decide (0 < countWs s) &&
  (let r := s.drop (countWs s)
   let w1 := r.takeWhile isWordChar
   decide (w1 ≠ []) &&
   (let r2 := r.drop w1.length
    match r2.drop (countWs r2) with
    | '=' :: r4 =>
        let r5 := r4.drop (countWs r4)
        let w2 := r5.takeWhile isWordChar
        decide (w2 ≠ []) &&
        (let r6 := r5.drop w2.length
         "--".toList.isPrefixOf (r6.drop (countWs r6)))
    | _ => false))

/-- Matcher for `\b(and|or)\b` followed by `tail`, at one position. -/
def andOrHere (tail : Str → Bool) (prev : Option Char) (s : Str) : Bool :=
  boundaryBefore prev &&
  (["and".toList, "or".toList].any fun w =>
    w.isPrefixOf s && boundaryAfter (s.drop w.length) && tail (s.drop w.length))

/-- Model of `is_sql_injection(query)` (lines 278-304). -/
def is_sql_injection (query : Str) : Bool :=
  let query_lower := lowerStr query
  injection_keywords.any (fun kw => containsSub kw query_lower) ||
  scanWithPrev (andOrHere tautNumTail) none query_lower ||
  scanWithPrev (andOrHere tautCmtTail) none query_lower

/-! ### The audit log (`log_query` / `get_query_logs`, lines 26-78) -/

/-- A query-log entry as built by `log_query` (lines 39-44); `timestamp`
models `time.time()`. -/
structure LogEntry where
  timestamp : Nat
  operation : Str
  success : Bool
  error_msg : Option Str
deriving DecidableEq, Repr

/-- Model of `log_query` (lines 35-47): append one entry to the global
list. -/
def log_query (operation : Str) (success : Bool) (error : Option Str) (now : Nat)
    (log : List LogEntry) : List LogEntry :=
  log ++ [⟨now, operation, success, error⟩]

/-- A log entry after the timestamp has been rendered (lines 69-71). -/
structure FormattedLogEntry where
  timestamp : Str
  operation : Str
  success : Bool
  error_msg : Option Str
deriving DecidableEq, Repr

/-- Rendering of one entry; `fmt` abstracts
`time.strftime("%Y-%m-%d %H:%M:%S", time.localtime(·))`, which is outside
the repository. -/
def formatEntry (fmt : Nat → Str) (e : LogEntry) : FormattedLogEntry :=
  ⟨fmt e.timestamp, e.operation, e.success, e.error_msg⟩

/-- Result shape of `get_query_logs`: either the failure dict of lines 58-61
or the success dict of lines 74-78. -/
inductive GetLogsResult where
  | failure (error : Str)
  | results (logs : List FormattedLogEntry) (total_queries : Nat)
deriving DecidableEq, Repr

/-- Model of `get_query_logs(limit)` (lines 49-78) over an explicit log
state. -/
def get_query_logs (fmt : Nat → Str) (log : List LogEntry) (limit : Int) : GetLogsResult :=
  if limit ≤ 0 then .failure "Limit must be a positive integer".toList
  else
    let logs := if limit < (log.length : Int) then log.drop (log.length - limit.toNat) else log
    .results (logs.map (formatEntry fmt)) log.length

/-! ### Query execution (`query_data`, lines 306-359) -/

/-- A result row (column name to rendered value). -/
abbrev Row := List (Str × Str)

/-- Result shape of `query_data`: the failure dicts (lines 312-315, 319-322,
352-355) or the success dict (lines 343-347). -/
inductive QueryDataResult where
  | failure (error : Str)
  | results (rows : List Row) (rowCount : Nat)
deriving DecidableEq, Repr

/-- The rejection message of line 310. -/
def safetyRejectionMsg : Str :=
  "Potentially unsafe query detected. Only SELECT queries are allowed. No sensitive fields like password/salary/etc.".toList

/-- The rejection message of line 317. -/
def injectionMsg : Str := "Potentially SQL injection detected!".toList

/-- Model of `query_data(sql)` (lines 306-359).  `connect` models the
un-guarded connection phase (lines 324-332: `get_connection()`, cursor
creation, `SET TRANSACTION READ ONLY`, `START TRANSACTION`) — an exception
there propagates out of `query_data` uncaught and unlogged.  `exec` models
the inner `try` (lines 334-355): a driver failure there is caught, rolled
back, logged and returned as a structured failure. -/
def query_data (fields : List Str) (σ : DescOracle) (connect : Except PyExn Unit)
    (exec : Str → Except Str (List Row)) (now : Nat) (sql : Str)
    (log : List LogEntry) : Except PyExn QueryDataResult × List LogEntry :=
  match is_safe_query fields σ sql with
  | .error e => (.error e, log)
  | .ok false =>
      (.ok (.failure safetyRejectionMsg), log_query sql false (some safetyRejectionMsg) now log)
  | .ok true =>
      if is_sql_injection sql then
        (.ok (.failure injectionMsg), log_query sql false (some injectionMsg) now log)
      else
        match connect with
        | .error e => (.error e, log)
        | .ok _ =>
            match exec sql with
            | .ok rows => (.ok (.results rows rows.length), log_query sql true none now log)
            | .error e => (.ok (.failure e), log_query sql false (some e) now log)

/-! ### Schema introspection (`get_schema`, lines 89-158) -/

/-- One column of a `DESCRIBE` answer, already reshaped as on lines
127-135. -/
structure ColumnInfo where
  name : Str
  colType : Str
  nullable : Str
  key : Str
  defaultVal : Option Str
  extra : Str
deriving DecidableEq, Repr

/-- Result shape of `get_schema`. -/
inductive SchemaResult where
  | failure (error : Str)
  | results (database : Str) (tables : List (Str × List ColumnInfo))
deriving DecidableEq, Repr

/-- `DESCRIBE` each table in order; the first driver failure wins (inside
the `try`, so it is caught and logged by `get_schema`). -/
def describeTables (describe : Str → Except Str (List ColumnInfo)) :
    List Str → Except Str (List (Str × List ColumnInfo))
  | [] => .ok []
  | t :: ts =>
      match describe t with
      | .error e => .error e
      | .ok cols => (describeTables describe ts).map ((t, cols) :: ·)

/-- Operation text of the success log entry (line 140).  The source formats
the Python list with an f-string; the exact rendering is immaterial to the
claims, so the names are space-joined here. -/
def schemaOpText (tables : List Str) : Str :=
  "get_schema for tables: ".toList ++ joinSp tables

/-- The per-table phase of `get_schema` (lines 120-154) applied to the
already-filtered table list. -/
def get_schema_run (describe : Str → Except Str (List ColumnInfo)) (dbName : Str) (now : Nat)
    (log : List LogEntry) (tq : List Str) : Except PyExn SchemaResult × List LogEntry :=
  match describeTables describe tq with
  | .ok tables => (.ok (.results dbName tables), log_query (schemaOpText tq) true none now log)
  | .error e => (.ok (.failure e), log_query "get_schema".toList false (some e) now log)

/-- Model of `get_schema(table_names)` (lines 89-158).  `connect` models
`get_connection()` on line 96, which is outside the `try` — a failure there
propagates uncaught and unlogged.  `dbTables` is the `SHOW TABLES` answer.
Note the early return of lines 111-115: when none of the requested tables
exist it returns a failure dict without logging anything. -/
def get_schema (connect : Except PyExn Unit) (dbTables : List Str)
    (describe : Str → Except Str (List ColumnInfo)) (dbName : Str)
    (table_names : Option (List Str)) (now : Nat)
    (log : List LogEntry) : Except PyExn SchemaResult × List LogEntry :=
  match connect with
  | .error e => (.error e, log)
  | .ok _ =>
      match table_names with
      | some names =>
          let valid := names.filter (fun n => n ∈ dbTables)
          if valid = [] then
            (.ok (.failure "None of the specified tables exist in the database".toList), log)
          else get_schema_run describe dbName now log valid
      | none => get_schema_run describe dbName now log dbTables

/-! ### Startup configuration (`DB_CONFIG`, `validate_config`,
`TongYiAPI.__init__`) -/

/-- Python `os.getenv(key, default)` over an abstract environment. -/
def pyGetenv (env : String → Option String) (k d : String) : String := (env k).getD d

/-- Python `int(str)` on the decimal strings the configuration uses. -/
def pyInt (s : String) : Option Int :=
  let t := pyStrip s.toList
  let core := match t with
    | '-' :: r => some (true, r)
    | '+' :: r => some (false, r)
    | r => some (false, r)
  match core with
  | some (neg, digs) =>
      if digs ≠ [] ∧ digs.all Char.isDigit then
        let v : Int := digs.foldl (fun a c => a * 10 + ((c.toNat : Int) - 48)) 0
        some (if neg then -v else v)
      else none
  | none => none

/-- The `DB_CONFIG` dict of lines 18-24.  `port` is `none` when
`int(os.getenv("DB_PORT", 3306))` would raise (variable present but not a
number); an absent variable yields the integer default `3306`. -/
structure DBConfig where
  host : String
  user : String
  passwd : String
  db : String
  port : Option Int
deriving DecidableEq, Repr

/-- Model of the `DB_CONFIG` initializer (lines 18-24). -/
def DB_CONFIG (env : String → Option String) : DBConfig :=
  { host := pyGetenv env "DB_HOST" "localhost"
    user := pyGetenv env "DB_USER" "test"
    passwd := pyGetenv env "DB_PASSWORD" "test"
    db := pyGetenv env "DB_NAME" "test_db"
    port := match env "DB_PORT" with
      | none => some 3306
      | some v => pyInt v }

/-- Model of `validate_config` (lines 474-481): it returns the list of
missing required variables, about which the source only emits warnings —
it never raises. -/
def validate_config (env : String → Option String) : List String :=
  ["DB_HOST", "DB_USER", "DB_PASSWORD", "DB_NAME"].filter (fun v => (env v).getD "" = "")

/-- The configuration held by a constructed `TongYiAPI` (LLM/api.py lines
11-21). -/
structure TongYiConfig where
  model : String
  api_key : String
  base_url : String
deriving DecidableEq, Repr

/-- Model of `TongYiAPI.__init__` (LLM/api.py lines 6-21): the model name
falls back to `"qwen-plus"`, but a missing (or empty) `api_key` raises
`ValueError` — modelled as `Except.error` with the source's message. -/
def TongYiAPI_init (env : String → Option String) : Except String TongYiConfig :=
  let model := pyGetenv env "model_name" "qwen-plus"
  let api_key := (env "api_key").getD ""
  if api_key = "" then .error "请设置DASHSCOPE_API_KEY环境变量"
  else .ok ⟨model, api_key, "https://dashscope.aliyuncs.com/compatible-mode/v1"⟩

/-! ### Client session state (`client.py`)

`MCPClient.__init__` (line 53) runs
`self.conversation_history = FEW_SHOT_EXAMPLES if self.use_few_shot else []`
with `self.use_few_shot = True` hard-coded on line 52, so
`conversation_history` is a reference to the module-level
`FEW_SHOT_EXAMPLES` list object itself — no copy is taken.  The `new chat`
branch of `chat_loop` (lines 241-244) executes the same assignment, again
re-binding to the very same object, and then installs a fresh session id.
`process_query` (lines 189-196) appends the user turn and the assistant
turn to `self.conversation_history` in place, i.e. it mutates the shared
`FEW_SHOT_EXAMPLES` object.  The state below therefore carries the contents
of that single shared list; the concrete few-shot example texts
(`LLM/few_shot_example.py`) are irrelevant to the claims and stay
abstract. -/

/-- One conversation message (`{"role": ..., "content": ...}`). -/
structure ChatMsg where
  role : String
  content : String
deriving DecidableEq, Repr

/-- The `use_few_shot` flag (client.py line 52). -/
def use_few_shot : Bool := true

/-- State of one client process: the contents of the shared
`FEW_SHOT_EXAMPLES` list object, and the current session id. -/
structure ClientState where
  fewShotExamples : List ChatMsg
  sessionId : String
deriving DecidableEq, Repr

/-- Model of `MCPClient.__init__` (lines 46-53): `moduleFewShot` is the
current contents of the module-level `FEW_SHOT_EXAMPLES` object; `sid`
models `str(uuid.uuid4())`. -/
def MCPClient_init (moduleFewShot : List ChatMsg) (sid : String) : ClientState :=
  { fewShotExamples := moduleFewShot, sessionId := sid }

/-- The conversation history observable on the client: the dereferenced
alias (always the shared few-shot object, since `use_few_shot` is true). -/
def conversation_history (s : ClientState) : List ChatMsg := s.fewShotExamples

/-- Model of one successful natural-language exchange in
`MCPClient.process_query` (lines 181-223): the two in-place appends of
lines 189-196, with the external completion API's answer abstracted as
`llmReply`. -/
def process_query_turn (query llmReply : String) (s : ClientState) : ClientState :=
  { s with fewShotExamples :=
      s.fewShotExamples ++ [⟨"user", query⟩, ⟨"assistant", llmReply⟩] }

/-- Model of the `new chat` branch of `chat_loop` (lines 241-244):
`self.conversation_history = FEW_SHOT_EXAMPLES if self.use_few_shot else []`
re-binds the history to the same shared (already mutated) list object —
its contents are unchanged — and `set_session_id(str(uuid.uuid4()))`
installs a fresh id. -/
def new_chat (freshSid : String) (s : ClientState) : ClientState :=
  { s with sessionId := freshSid }

/-! ### Generic lemmas about the string model -/

theorem findSplit_eq {sub : Str} : ∀ {s p r : Str}, findSplit sub s = some (p, r) → p ++ sub ++ r = s := by
  intro s
  induction s with
  | nil =>
      intro p r h
      by_cases hsub : sub = ([] : Str) <;> simp [findSplit, hsub] at h
      simp [h.1, h.2, hsub]
  | cons c rest ih =>
      intro p r h
      by_cases hp : sub.isPrefixOf (c :: rest)
      · simp only [findSplit, hp, if_pos, if_true] at h
        obtain ⟨h1, h2⟩ := Prod.mk.injEq .. ▸ Option.some.inj h
        subst h1; subst h2
        simpa using List.prefix_iff_eq_append.mp ( List.isPrefixOf_iff_prefix.mp hp)
      · simp only [findSplit, hp, if_false, Bool.false_eq_true, Option.map_eq_some'] at h
        obtain ⟨⟨p', r'⟩, hfs, heq⟩ := h
        obtain ⟨h1, h2⟩ := Prod.mk.injEq .. ▸ heq
        subst h1; subst h2
        simpa using ih hfs

theorem containsSub_iff_occurs {sub s : Str} : containsSub sub s = true ↔ sub <:+: s := by
  constructor
  · intro h
    rw [containsSub, Option.isSome_iff_exists] at h
    obtain ⟨⟨p, r⟩, hfs⟩ := h
    exact ⟨p, r, findSplit_eq hfs⟩
  · intro h
    induction s with
    | nil =>
        rw [List.infix_nil] at h
        subst h
        decide
    | cons c rest ih =>
        by_cases hp : sub.isPrefixOf (c :: rest)
        · simp [containsSub, findSplit, hp]
        · rcases List.infix_cons_iff.mp h with hpre | hinf
          · exact absurd ( List.isPrefixOf_iff_prefix.mpr hpre) hp
          · have := ih hinf
            rw [containsSub] at this ⊢
            simp only [findSplit, hp, if_false, Bool.false_eq_true]
            simpa using this

theorem fastFieldScan_total {fields : List Str} {s : Str}
    (h : ∀ f ∈ fields, regexFieldOk f = true) : ∃ b, fastFieldScan fields s = .ok b := by
  induction fields with
  | nil => exact ⟨false, rfl⟩
  | cons f fs ih =>
      have hf := h f (by simp)
      by_cases hw : wbSearch f s
      · exact ⟨true, by simp [fastFieldScan, hf, hw]⟩
      · obtain ⟨b, hb⟩ := ih (fun g hg => h g (by simp [hg]))
        exact ⟨b, by simp [fastFieldScan, hf, hw, hb]⟩

theorem fastFieldScan_hit {fields : List Str} {s f : Str}
    (h : ∀ g ∈ fields, regexFieldOk g = true) (hmem : f ∈ fields)
    (hw : wbSearch f s = true) : fastFieldScan fields s = .ok true := by
  induction fields with
  | nil => cases hmem
  | cons g gs ih =>
      have hg := h g (by simp)
      by_cases hgw : wbSearch g s
      · simp [fastFieldScan, hg, hgw]
      · rcases List.mem_cons.mp hmem with rfl | hmem'
        · exact absurd hw (by simpa using hgw)
        · simpa [fastFieldScan, hg, hgw] using ih (fun x hx => h x (by simp [hx])) hmem'

/-- With a regex-safe field configuration the validator can only return a
verdict, never raise. -/
theorem is_safe_query_total {fields : List Str} (σ : DescOracle) (sqlRaw : Str)
    (h : ∀ f ∈ fields, regexFieldOk f = true) :
    ∃ b, is_safe_query fields σ sqlRaw = .ok b := by
  rw [is_safe_query]
  split
  · exact ⟨false, rfl⟩
  · split
    · exact ⟨false, rfl⟩
    · split
      · exact ⟨false, rfl⟩
      · obtain ⟨b, hb⟩ := @fastFieldScan_total fields (normLower sqlRaw) h
        cases b <;> simp [hb]

theorem pySplitGo_run {w q acc : Str} (hacc : acc ≠ []) (hw : ∀ c ∈ w, isWs c = false) :
    pySplitGo acc (w ++ ' ' :: q) = (acc.reverse ++ w) :: pySplitGo [] q := by
  induction w generalizing acc with
  | nil => simp [pySplitGo, hacc, isWs]
  | cons a w' ih =>
      have ha : isWs a = false := hw a (by simp)
      have := @ih (a :: acc) (by simp) (fun c hc => hw c (by simp [hc]))
      simp only [List.cons_append, pySplitGo, ha, Bool.false_eq_true, if_false,
        List.append_eq, this, List.reverse_cons, List.append_assoc, List.singleton_append,
        List.nil_append]

theorem pySplitGo_end {w acc : Str} (hacc : acc ≠ []) (hw : ∀ c ∈ w, isWs c = false) :
    pySplitGo acc w = [acc.reverse ++ w] := by
  induction w generalizing acc with
  | nil => simp [pySplitGo, hacc]
  | cons a w' ih =>
      have ha : isWs a = false := hw a (by simp)
      have := @ih (a :: acc) (by simp) (fun c hc => hw c (by simp [hc]))
      simp only [pySplitGo, ha, Bool.false_eq_true, if_false, this,
        List.reverse_cons, List.append_assoc, List.singleton_append]

theorem pySplit_single {t : Str} (h1 : t ≠ []) (h2 : ∀ c ∈ t, isWs c = false) :
    pySplit t = [t] := by
  cases t with
  | nil => exact absurd rfl h1
  | cons a r =>
      have ha : isWs a = false := h2 a (by simp)
      rw [pySplit]
      simp only [pySplitGo, ha, Bool.false_eq_true, if_false]
      rw [pySplitGo_end (by simp) (fun c hc => h2 c (by simp [hc]))]
      simp

theorem mem_pySplitGo_of_spaced_occ {w : Str} (hw : w ≠ []) (hns : ∀ c ∈ w, isWs c = false) :
    ∀ (s acc : Str), (' ' :: (w ++ [' '])) <:+: s → w ∈ pySplitGo acc s := by
  intro s
  induction s with
  | nil =>
      intro acc h
      have := List.infix_nil.mp h
      simp at this
  | cons c rest ih =>
      intro acc h
      rcases List.infix_cons_iff.mp h with hpre | hinf
      · obtain ⟨hc, hrest⟩ := List.cons_prefix_cons.mp hpre
        obtain ⟨q, hq⟩ := hrest
        have hrest' : rest = w ++ ' ' :: q := by
          rw [← hq, List.append_assoc, List.singleton_append]
        subst hrest'
        subst hc
        have hmem : w ∈ pySplitGo [] (w ++ ' ' :: q) := by
          cases w with
          | nil => exact absurd rfl hw
          | cons a w' =>
              have ha : isWs a = false := hns a (by simp)
              simp only [List.cons_append, pySplitGo, ha, Bool.false_eq_true, if_false,
                List.append_eq]
              rw [pySplitGo_run (by simp) (fun c hc => hns c (by simp [hc]))]
              simp
        simp only [pySplitGo, isWs, Char.isValue, beq_self_eq_true, Bool.true_or, if_true]
        split <;> simp [hmem]
      · by_cases hc : isWs c
        · have hmem := ih [] hinf
          simp only [pySplitGo, hc, if_true]
          split <;> simp [hmem]
        · have hmem := ih (c :: acc) hinf
          simpa only [pySplitGo, hc, Bool.false_eq_true, if_false] using hmem

/-- If the space-padded word `w` occurs as a substring, then `w` is one of
the Python `split()` tokens. -/
theorem mem_pySplit_of_spaced_containsSub {w s : Str} (hw : w ≠ [])
    (hns : ∀ c ∈ w, isWs c = false)
    (h : containsSub (' ' :: (w ++ [' '])) s = true) : w ∈ pySplit s :=
  mem_pySplitGo_of_spaced_occ hw hns s [] (containsSub_iff_occurs.mp h)

/-! ### Claim C1 -/

/-- C1: the claim says the sensitive-field set consulted by the validator is
the union of the built-in defaults and the configured list, so that with no
external configuration `SELECT password FROM employee` is rejected.  The
code computes `default_fields` but returns only the environment-derived
list: with `SENSITIVE_FIELDS` unset the set is empty and the query is
accepted, although `password` is among the (dead) built-in defaults.  This
contradicts the function's own docstring, so the claim is recorded as a code
bug; this theorem evaluates the code at the failing input. -/
theorem c1_defaults_dropped_eval :
    "password".toList ∈ default_fields ∧
    get_sensitive_fields none = [] ∧
    is_safe_query (get_sensitive_fields none) (fun _ => none)
      "SELECT password FROM employee".toList = .ok true :=
  ⟨by decide, by decide, by decide⟩

/-! ### Claim C2 -/

/-- C2 counterexample: with the externally configured sensitive-field list
`"("` (a value `get_sensitive_fields` happily produces), the validator's
quick field scan compiles the pattern `\b(\b`, which raises `re.error`
outside the `try` block; the exception escapes `is_safe_query` and then
`query_data`, so the claim that no exception ever escapes for every
configured list is false. -/
theorem c2_regex_error_escapes :
    get_sensitive_fields (some "(".toList) = ["(".toList] ∧
    is_safe_query ["(".toList] (fun _ => none) "select x from t".toList = .error .reError ∧
    (query_data ["(".toList] (fun _ => none) (.ok ()) (fun _ => .ok []) 0
      "select x from t".toList []).1 = .error .reError :=
  ⟨by decide, by decide, by decide⟩

/-- C2 (amended): for every SQL text and every configured sensitive-field
list whose entries consist of word characters (so that each spliced pattern
`\b<field>\b` compiles), the validator never lets an exception escape —
exceptions inside the projection-analysis `try` block are caught and turned
into rejection — and `query_data` (once its unguarded connection phase
succeeds) always returns a structured result rather than raising. -/
theorem c2_amended_no_exception_escapes (fields : List Str) (σ : DescOracle) (sql : Str)
    (h : ∀ f ∈ fields, regexFieldOk f = true) :
    (∃ b, is_safe_query fields σ sql = .ok b) ∧
    ∀ (exec : Str → Except Str (List Row)) (now : Nat) (log : List LogEntry),
      ∃ r, (query_data fields σ (.ok ()) exec now sql log).1 = .ok r := by
  obtain ⟨b, hb⟩ := is_safe_query_total σ sql h
  refine ⟨⟨b, hb⟩, ?_⟩
  intro exec now log
  cases b with
  | false =>
      simp only [query_data, hb]
      exact ⟨_, rfl⟩
  | true =>
      by_cases hinj : is_sql_injection sql
      · simp only [query_data, hb, hinj, if_true]
        exact ⟨_, rfl⟩
      · cases hexec : exec sql with
        | ok rows =>
            simp only [query_data, hb, hinj, Bool.false_eq_true, if_false, hexec]
            exact ⟨_, rfl⟩
        | error e =>
            simp only [query_data, hb, hinj, Bool.false_eq_true, if_false, hexec]
            exact ⟨_, rfl⟩

/-- C2 witness. -/
theorem c2_amended_no_exception_escapes_witness :
    (∃ b, is_safe_query ["password".toList] (fun _ => none)
        "select name from student".toList = .ok b) ∧
    ∀ (exec : Str → Except Str (List Row)) (now : Nat) (log : List LogEntry),
      ∃ r, (query_data ["password".toList] (fun _ => none) (.ok ()) exec now
        "select name from student".toList log).1 = .ok r :=
  c2_amended_no_exception_escapes ["password".toList] (fun _ => none)
    "select name from student".toList (by decide)

/-! ### Claim C3 -/

/-- C3 counterexample: `select 1;drop table t` contains `drop` as a
standalone (word-bounded) word of the whitespace-normalized lower-cased
text — adjacent to the punctuation `;` — yet the validator accepts it,
because the blocklist test only looks for the keyword surrounded by
spaces. -/
theorem c3_keyword_next_to_punctuation_accepted :
    wbSearch "drop".toList (normLower "select 1;drop table t".toList) = true ∧
    is_safe_query (get_sensitive_fields none) (fun _ => none)
      "select 1;drop table t".toList = .ok true :=
  ⟨by decide, by decide⟩

/-- C3 (amended): the validator rejects every SQL text in which one of
`insert, update, delete, drop, alter, truncate, create` occurs surrounded
by spaces in the space-padded, whitespace-normalized, lower-cased text
(padding makes keywords at the very start or end count); keywords flanked
by punctuation without spaces are not caught. -/
theorem c3_amended_spaced_keyword_rejects (fields : List Str) (σ : DescOracle) (sql : Str)
    (h : ∃ kw ∈ dangerousKeywords,
      (' ' :: (kw ++ [' '])) <:+: (' ' :: (normLower sql ++ [' ']))) :
    is_safe_query fields σ sql = .ok false := by
  simp only [is_safe_query]
  split
  · rfl
  · split
    · rfl
    · split
      · rfl
      · rename_i hk
        exfalso
        apply hk
        obtain ⟨kw, hmem, hinf⟩ := h
        rw [keywordHit, List.any_eq_true]
        exact ⟨kw, hmem, containsSub_iff_occurs.mpr hinf⟩

/-- C3 witness. -/
theorem c3_amended_spaced_keyword_rejects_witness :
    is_safe_query [] (fun _ => none) "select drop from t".toList = .ok false :=
  c3_amended_spaced_keyword_rejects [] (fun _ => none) "select drop from t".toList
    ⟨"drop".toList, by decide, by decide⟩

/-! ### Claim C4 -/

/-- C4: the shape check.  Any text whose whitespace-normalized lower-cased
form starts with neither `select` nor `with` is rejected; and a text
starting with `with` is rejected when no `select` token occurs among the
tokens of the normalized text. -/
theorem c4_shape_check (fields : List Str) (σ : DescOracle) (sql : Str) :
    (¬ "select".toList <+: normLower sql ∧ ¬ "with".toList <+: normLower sql →
      is_safe_query fields σ sql = .ok false) ∧
    ("with".toList <+: normLower sql ∧ "select".toList ∉ pySplit (normLower sql) →
      is_safe_query fields σ sql = .ok false) := by
  constructor
  · rintro ⟨h1, h2⟩
    simp only [is_safe_query]
    have e0 : ("select".toList.isPrefixOf (normLower sql)
        || "with".toList.isPrefixOf (normLower sql)) = false := by
      rw [Bool.or_eq_false_iff]
      constructor <;> rw [← Bool.not_eq_true, List.isPrefixOf_iff_prefix]
      · exact h1
      · exact h2
    rw [e0]
    rfl
  · rintro ⟨h1, h2⟩
    have e3 : containsSub " select ".toList (normLower sql) = false := by
      rw [← Bool.not_eq_true]
      intro h
      exact h2 (mem_pySplit_of_spaced_containsSub (by decide) (by decide) h)
    have e2 : "with".toList.isPrefixOf (normLower sql) = true :=
      List.isPrefixOf_iff_prefix.mpr h1
    simp only [is_safe_query, e2, e3, Bool.or_true, Bool.not_true, Bool.false_eq_true,
      if_false, Bool.not_false, Bool.and_true, Bool.and_self, if_true]

/-- C4 witness. -/
theorem c4_shape_check_witness :
    is_safe_query [] (fun _ => none) "DROP TABLE student".toList = .ok false ∧
    is_safe_query [] (fun _ => none) "with t as (select1)".toList = .ok false :=
  ⟨(c4_shape_check [] (fun _ => none) "DROP TABLE student".toList).1 ⟨by decide, by decide⟩,
   (c4_shape_check [] (fun _ => none) "with t as (select1)".toList).2 ⟨by decide, by decide⟩⟩

/-! ### Claim C6 -/

/-- C6 counterexample: a call to `query_data` whose SQL passes both checks
but whose connection phase fails at the driver level (`get_connection()` on
line 324 is outside every `try`) lets the exception escape and appends no
log entry at all, refuting "exactly one entry regardless of outcome". -/
theorem c6_connection_failure_unlogged :
    query_data [] (fun _ => none) (.error (.dbError "connection refused".toList))
      (fun _ => .ok []) 0 "select name from student".toList []
      = (.error (.dbError "connection refused".toList), []) := by decide

/-- C6 (amended): when the validator does not raise (word-character field
configuration) and the connection phase succeeds, every `query_data` call
appends exactly one log entry — safety rejection, injection rejection,
successful execution and caught execution failure alike; and for every
connection outcome the prior log is preserved as a prefix (entries are never
mutated or removed), a connection-phase failure appending nothing. -/
theorem c6_amended_one_entry_per_call (fields : List Str) (σ : DescOracle)
    (exec : Str → Except Str (List Row)) (now : Nat) (sql : Str) (log : List LogEntry)
    (h : ∀ f ∈ fields, regexFieldOk f = true) :
    (∃ e, (query_data fields σ (.ok ()) exec now sql log).2 = log ++ [e]) ∧
    ∀ connect, log <+: (query_data fields σ connect exec now sql log).2 := by
  obtain ⟨b, hb⟩ := is_safe_query_total σ sql h
  constructor
  · cases b with
    | false =>
        refine ⟨⟨now, sql, false, some safetyRejectionMsg⟩, ?_⟩
        simp only [query_data, hb, log_query]
    | true =>
        by_cases hinj : is_sql_injection sql
        · refine ⟨⟨now, sql, false, some injectionMsg⟩, ?_⟩
          simp only [query_data, hb, hinj, if_true, log_query]
        · cases hexec : exec sql with
          | ok rows =>
              refine ⟨⟨now, sql, true, none⟩, ?_⟩
              simp only [query_data, hb, hinj, Bool.false_eq_true, if_false, hexec, log_query]
          | error e =>
              refine ⟨⟨now, sql, false, some e⟩, ?_⟩
              simp only [query_data, hb, hinj, Bool.false_eq_true, if_false, hexec, log_query]
  · intro connect
    cases b with
    | false =>
        simp only [query_data, hb, log_query]
        exact List.prefix_append log _
    | true =>
        by_cases hinj : is_sql_injection sql
        · simp only [query_data, hb, hinj, if_true, log_query]
          exact List.prefix_append log _
        · cases connect with
          | error e => simp [query_data, hb, hinj]
          | ok u =>
              cases hexec : exec sql with
              | ok rows =>
                  simp only [query_data, hb, hinj, Bool.false_eq_true, if_false, hexec,
                    log_query]
                  exact List.prefix_append log _
              | error e =>
                  simp only [query_data, hb, hinj, Bool.false_eq_true, if_false, hexec,
                    log_query]
                  exact List.prefix_append log _

/-- C6 witness. -/
theorem c6_amended_one_entry_per_call_witness :
    (∃ e, (query_data [] (fun _ => none) (.ok ()) (fun _ => .ok []) 5
        "drop table t".toList [⟨1, "x".toList, true, none⟩]).2
        = [⟨1, "x".toList, true, none⟩] ++ [e]) ∧
    ∀ connect, [⟨1, "x".toList, true, none⟩] <+:
      (query_data [] (fun _ => none) connect (fun _ => .ok []) 5
        "drop table t".toList [⟨1, "x".toList, true, none⟩]).2 :=
  c6_amended_one_entry_per_call [] (fun _ => none) (fun _ => .ok []) 5
    "drop table t".toList [⟨1, "x".toList, true, none⟩] (by decide)

/-! ### Claim C7 -/

/-- C7: `get_query_logs` fails with the invalid-argument message whenever
`limit ≤ 0`, and otherwise returns the last `min(limit, k)` entries of the
`k`-entry log, in their original order, each with its timestamp rendered by
the formatter, reporting `total_queries = k`. -/
theorem c7_get_query_logs_spec (fmt : Nat → Str) (log : List LogEntry) (limit : Int) :
    (limit ≤ 0 →
      get_query_logs fmt log limit = .failure "Limit must be a positive integer".toList) ∧
    (0 < limit →
      get_query_logs fmt log limit =
        .results ((log.drop (log.length - min limit.toNat log.length)).map (formatEntry fmt))
          log.length) := by
  constructor
  · intro h
    simp [get_query_logs, h]
  · intro h
    have hnle : ¬ limit ≤ 0 := by omega
    simp only [get_query_logs, hnle, if_false]
    by_cases hlt : limit < (log.length : Int)
    · have hmin : min limit.toNat log.length = limit.toNat := by omega
      simp [hlt, hmin]
    · have hmin : min limit.toNat log.length = log.length := by omega
      simp [hlt, hmin]

/-- C7 witness. -/
theorem c7_get_query_logs_spec_witness :
    get_query_logs (fun _ => "ts".toList) [⟨1, "a".toList, true, none⟩,
      ⟨2, "b".toList, false, some "e".toList⟩] 0
      = .failure "Limit must be a positive integer".toList ∧
    get_query_logs (fun _ => "ts".toList) [⟨1, "a".toList, true, none⟩,
      ⟨2, "b".toList, false, some "e".toList⟩] 1
      = .results [⟨"ts".toList, "b".toList, false, some "e".toList⟩] 2 := by
  constructor
  · exact (c7_get_query_logs_spec (fun _ => "ts".toList) _ 0).1 (by decide)
  · have h := (c7_get_query_logs_spec (fun _ => "ts".toList) [⟨1, "a".toList, true, none⟩,
      ⟨2, "b".toList, false, some "e".toList⟩] 1).2 (by decide)
    simpa using h

/-! ### Claim C8 -/

/-- C8: the claim says `new chat` replaces the conversation history
wholesale, leaving exactly a freshly seeded few-shot history with none of
the prior turns.  In the code, `self.conversation_history =
FEW_SHOT_EXAMPLES` re-binds to the same module-level list object that
`process_query` has been mutating in place, so after one exchange followed
by `new chat` the observed history still contains the prior session's two
turns (and only the session id is fresh) — the spec is the evident intent
(its design notes even call out this aliasing hazard), so this is recorded
as a code bug; this theorem evaluates the model at the failing input. -/
theorem c8_reset_keeps_prior_turns (seed : List ChatMsg) (sid sid' q r : String) :
    conversation_history (new_chat sid' (process_query_turn q r (MCPClient_init seed sid)))
      = seed ++ [⟨"user", q⟩, ⟨"assistant", r⟩] ∧
    conversation_history (new_chat sid' (process_query_turn q r (MCPClient_init seed sid)))
      ≠ conversation_history (MCPClient_init seed sid) ∧
    (new_chat sid' (process_query_turn q r (MCPClient_init seed sid))).sessionId = sid' := by
  refine ⟨rfl, ?_, rfl⟩
  intro h
  have hlen := congrArg List.length h
  simp [conversation_history, new_chat, process_query_turn, MCPClient_init] at hlen

/-! ### Claim C9 -/

/-- C9 counterexample: the completion-backend API key is a required startup
configuration value (`TongYiAPI()` is constructed in `MCPClient.__init__`),
and when it is absent the constructor raises `ValueError` instead of
warning and falling back — so "startup never raises because a required
environment variable is absent" is false. -/
theorem c9_api_key_missing_raises :
    TongYiAPI_init (fun _ => none) = .error "请设置DASHSCOPE_API_KEY环境变量" := by
  decide

/-- C9 (amended): the database host/user/password/name/port, the
sensitive-field list and the model name all fall back to defaults when
absent, with `validate_config` only recording a warning for each missing
database variable; the completion API key alone is an exception — when it
is absent (or empty) the client's startup raises `ValueError`. -/
theorem c9_amended_config_defaults (env : String → Option String) :
    (env "DB_HOST" = none → (DB_CONFIG env).host = "localhost") ∧
    (env "DB_USER" = none → (DB_CONFIG env).user = "test") ∧
    (env "DB_PASSWORD" = none → (DB_CONFIG env).passwd = "test") ∧
    (env "DB_NAME" = none → (DB_CONFIG env).db = "test_db") ∧
    (env "DB_PORT" = none → (DB_CONFIG env).port = some 3306) ∧
    (env "SENSITIVE_FIELDS" = none →
      get_sensitive_fields ((env "SENSITIVE_FIELDS").map String.toList) = []) ∧
    (∀ v ∈ ["DB_HOST", "DB_USER", "DB_PASSWORD", "DB_NAME"],
      env v = none → v ∈ validate_config env) ∧
    (env "model_name" = none →
      ∀ cfg, TongYiAPI_init env = .ok cfg → cfg.model = "qwen-plus") ∧
    ((env "api_key").getD "" = "" →
      TongYiAPI_init env = .error "请设置DASHSCOPE_API_KEY环境变量") := by
  refine ⟨?_, ?_, ?_, ?_, ?_, ?_, ?_, ?_, ?_⟩
  · intro h; simp [DB_CONFIG, pyGetenv, h]
  · intro h; simp [DB_CONFIG, pyGetenv, h]
  · intro h; simp [DB_CONFIG, pyGetenv, h]
  · intro h; simp [DB_CONFIG, pyGetenv, h]
  · intro h; simp [DB_CONFIG, h]
  · intro h; rw [h]; decide
  · intro v hv h
    rw [validate_config, List.mem_filter]
    exact ⟨hv, by simp [h]⟩
  · intro hm cfg hcfg
    rw [TongYiAPI_init] at hcfg
    split at hcfg
    · exact absurd hcfg (by simp)
    · cases hcfg
      simp [pyGetenv, hm]
  · intro h
    simp [TongYiAPI_init, h]

/-- C9 witness. -/
theorem c9_amended_config_defaults_witness :
    (DB_CONFIG (fun _ => none)).host = "localhost" ∧
    (DB_CONFIG (fun _ => none)).port = some 3306 ∧
    "DB_HOST" ∈ validate_config (fun _ => none) ∧
    TongYiAPI_init (fun _ => none) = .error "请设置DASHSCOPE_API_KEY环境变量" := by
  have h := c9_amended_config_defaults (fun _ => none)
  exact ⟨h.1 rfl, h.2.2.2.2.1 rfl, h.2.2.2.2.2.2.1 "DB_HOST" (by decide) rfl,
    h.2.2.2.2.2.2.2.2 rfl⟩

/-! ### Claim C10 -/

/-- C10 counterexample: a `get_schema` call whose requested tables match
nothing returns the structured failure of lines 111-115 without appending
any log entry, refuting "every get_schema call appends exactly one entry on
success and on failure alike". -/
theorem c10_no_matching_tables_unlogged :
    get_schema (.ok ()) ["employee".toList] (fun _ => .ok []) "db".toList
      (some ["ghost".toList]) 0 []
      = (.ok (.failure "None of the specified tables exist in the database".toList), []) := by
  decide

/-- C10 (amended): every `get_schema` call that connects and passes the
table-name filter (no filter, or at least one requested table exists)
appends exactly one entry to the same process-wide log — on success and on
caught `DESCRIBE` failure alike — and a subsequent `get_query_logs` with a
positive limit reports a `total_queries` that counts this schema lookup;
the no-matching-tables early return and connection failures append
nothing, and reading the log never appends. -/
theorem c10_amended_schema_logging (dbTables : List Str)
    (describe : Str → Except Str (List ColumnInfo)) (dbName : Str)
    (table_names : Option (List Str)) (now : Nat) (log : List LogEntry)
    (h : table_names = none ∨
      ∃ ns, table_names = some ns ∧ ns.filter (fun n => n ∈ dbTables) ≠ []) :
    ∃ e, (get_schema (.ok ()) dbTables describe dbName table_names now log).2 = log ++ [e] ∧
      ∀ (fmt : Nat → Str) (limit : Int), 0 < limit →
        ∃ ls, get_query_logs fmt (log ++ [e]) limit = .results ls (log.length + 1) := by
  have run : ∀ tq, ∃ e, (get_schema_run describe dbName now log tq).2 = log ++ [e] := by
    intro tq
    cases hdt : describeTables describe tq with
    | ok tables =>
        refine ⟨⟨now, schemaOpText tq, true, none⟩, ?_⟩
        simp [get_schema_run, hdt, log_query]
    | error e =>
        refine ⟨⟨now, "get_schema".toList, false, some e⟩, ?_⟩
        simp [get_schema_run, hdt, log_query]
  have tail : ∀ (e : LogEntry) (fmt : Nat → Str) (limit : Int), 0 < limit →
      ∃ ls, get_query_logs fmt (log ++ [e]) limit = .results ls (log.length + 1) := by
    intro e fmt limit hl
    have hnle : ¬ limit ≤ 0 := by omega
    simp only [get_query_logs, hnle, if_false]
    have hlen : (log ++ [e]).length = log.length + 1 := by simp
    rw [hlen]
    exact ⟨_, rfl⟩
  rcases h with rfl | ⟨ns, rfl, hne⟩
  · obtain ⟨e, he⟩ := run dbTables
    exact ⟨e, by simpa [get_schema] using he, fun fmt limit hl => tail e fmt limit hl⟩
  · obtain ⟨e, he⟩ := run (ns.filter (fun n => n ∈ dbTables))
    refine ⟨e, ?_, fun fmt limit hl => tail e fmt limit hl⟩
    simpa [get_schema, hne] using he

/-- C10 witness. -/
theorem c10_amended_schema_logging_witness :
    ∃ e, (get_schema (.ok ()) ["employee".toList] (fun _ => .ok []) "db".toList
        none 9 []).2 = [] ++ [e] ∧
      ∀ (fmt : Nat → Str) (limit : Int), 0 < limit →
        ∃ ls, get_query_logs fmt ([] ++ [e]) limit = .results ls (0 + 1) :=
  c10_amended_schema_logging ["employee".toList] (fun _ => .ok []) "db".toList
    none 9 [] (Or.inl rfl)

/-! ### Claim C5 -/

/-- C5 counterexample: `select *from employee` is valid MySQL projecting
every column of `employee` — whose live schema contains the configured
sensitive column `password` — yet the validator accepts it: the projection
regex `select\s+(.*?)\s+from` requires whitespace on both sides of the
projection list, so no `SELECT *` analysis happens at all. -/
theorem c5_star_without_space_accepted :
    (fun tn => if tn = "employee".toList
        then some ["id".toList, "password".toList] else none) "employee".toList
      = some ["id".toList, "password".toList] ∧
    is_safe_query ["password".toList]
      (fun tn => if tn = "employee".toList
        then some ["id".toList, "password".toList] else none)
      "select *from employee".toList = .ok true :=
  ⟨by decide, by decide⟩

theorem not_isWs_of_isWordChar {c : Char} (h : isWordChar c = true) : isWs c = false := by
  by_contra hcon
  have hws : isWs c = true := by simpa using hcon
  rw [isWs] at hws
  simp only [Bool.or_eq_true, beq_iff_eq] at hws
  rcases hws with ((rfl | rfl) | rfl) | rfl <;> exact absurd h (by decide)

theorem ne_of_isWordChar {c d : Char} (h : isWordChar c = true)
    (hd : isWordChar d = false) : c ≠ d := by
  rintro rfl
  rw [h] at hd
  cases hd

theorem findSplit_none_of_head_not_mem {d : Char} {ds s : Str} (h : d ∉ s) :
    findSplit (d :: ds) s = none := by
  induction s with
  | nil => rfl
  | cons c rest ih =>
      have hdc : d ≠ c := fun e => h (e ▸ List.mem_cons_self c rest)
      have hpre : (d :: ds).isPrefixOf (c :: rest) = false := by
        simp [List.isPrefixOf, hdc]
      rw [findSplit, hpre]
      simp only [Bool.false_eq_true, if_false]
      rw [ih (fun hm => h (List.mem_cons_of_mem c hm))]
      rfl

theorem cutLineComment_eq_self {s : Str} (h : '-' ∉ s) : cutLineComment s = s := by
  rw [cutLineComment, show ("--".toList : Str) = '-' :: ['-'] from rfl,
    findSplit_none_of_head_not_mem h]

theorem removeBlockComments_eq_self {s : Str} (h : '/' ∉ s) :
    removeBlockComments s = s := by
  rw [removeBlockComments]
  cases hf : s.length with
  | zero => rfl
  | succ n =>
      rw [removeBlockGo, show ("/*".toList : Str) = '/' :: ['*'] from rfl,
        findSplit_none_of_head_not_mem h]

theorem dropWhile_eq_self_of_all_false {p : Char → Bool} {l : Str}
    (h : ∀ c ∈ l, p c = false) : l.dropWhile p = l := by
  cases l with
  | nil => rfl
  | cons a r => simp [List.dropWhile_cons, h a (by simp)]

theorem takeWhile_eq_self_of_all_true {p : Char → Bool} {l : Str}
    (h : ∀ c ∈ l, p c = true) : l.takeWhile p = l := by
  induction l with
  | nil => rfl
  | cons a r ih =>
      simp [List.takeWhile_cons, h a (by simp), ih (fun c hc => h c (by simp [hc]))]

theorem stripBackticks_eq_self {t : Str} (hw : ∀ c ∈ t, isWordChar c = true) :
    stripBackticks t = t := by
  have hne : ∀ c ∈ t, (c == '`') = false := by
    intro c hc
    have := ne_of_isWordChar (hw c hc) (by decide : isWordChar '`' = false)
    simpa using this
  rw [stripBackticks]
  rw [dropWhile_eq_self_of_all_false hne]
  rw [dropWhile_eq_self_of_all_false (fun c hc => hne c (List.mem_reverse.mp hc))]
  exact List.reverse_reverse t

theorem normLower_selstar {t : Str} (h1 : t ≠ []) (hws : ∀ c ∈ t, isWs c = false)
    (hl : ∀ c ∈ t, Char.toLower c = c) :
    normLower ("select * from ".toList ++ t) = "select * from ".toList ++ t := by
  rw [normLower]
  rw [show pySplit ("select * from ".toList ++ t)
      = "select".toList :: "*".toList :: "from".toList :: pySplit t from rfl]
  rw [pySplit_single h1 hws]
  rw [show joinSp ["select".toList, "*".toList, "from".toList, t]
      = "select * from ".toList ++ t from rfl]
  rw [lowerStr, List.map_append]
  congr 1
  exact (List.map_congr_left hl).trans (List.map_id t)

theorem scanFirst_cons_eq {f : Str → Option α} {c : Char} {rest : Str} :
    scanFirst f (c :: rest)
      = match f (c :: rest) with | some r => some r | none => scanFirst f rest := rfl

theorem matchFromHere_selstar {t : Str} (h1 : t ≠ []) (hw : ∀ c ∈ t, isWordChar c = true) :
    matchFromHere ("from ".toList ++ t) = some t := by
  cases t with
  | nil => exact absurd rfl h1
  | cons a t' =>
      have ha : isWs a = false := not_isWs_of_isWordChar (hw a (by simp))
      have htw : List.takeWhile isWs (a :: t') = [] := by
        simp [List.takeWhile_cons, ha]
      have hn : countWs (" ".toList ++ a :: t') = 1 := by
        have htw2 : List.takeWhile isWs (' ' :: a :: t') = [' '] := by
          rw [List.takeWhile_cons, if_pos (show isWs ' ' = true from rfl), htw]
        rw [show (" ".toList ++ a :: t') = ' ' :: a :: t' from rfl, countWs, htw2]
        rfl
      have hcap : (a :: t').takeWhile (fun c => !isWs c && c != ';') = a :: t' := by
        apply takeWhile_eq_self_of_all_true
        intro c hc
        have hwc := hw c hc
        have hc1 := not_isWs_of_isWordChar hwc
        have hc2 : c ≠ ';' := ne_of_isWordChar hwc (by decide)
        simp [hc1, hc2]
      simp only [matchFromHere,
        show ("from".toList.isPrefixOf ("from ".toList ++ (a :: t'))) = true from rfl,
        if_true]
      rw [show (("from ".toList ++ (a :: t')).drop 4) = (" ".toList ++ a :: t') from rfl]
      rw [hn]
      simp only [Nat.lt_irrefl, Nat.zero_lt_one, if_true]
      rw [show ((" ".toList ++ a :: t').drop 1) = a :: t' from rfl]
      rw [hcap]
      simp

theorem firstFromTable_selstar {t : Str} (h1 : t ≠ []) (hw : ∀ c ∈ t, isWordChar c = true) :
    firstFromTable ("select * from ".toList ++ t) = some t := by
  rw [show firstFromTable ("select * from ".toList ++ t)
      = scanFirst matchFromHere ("from ".toList ++ t) from rfl]
  cases t with
  | nil => exact absurd rfl h1
  | cons a t' =>
      rw [show ("from ".toList ++ (a :: t')) = 'f' :: ("rom ".toList ++ (a :: t')) from rfl]
      rw [scanFirst_cons_eq]
      rw [show ('f' :: ("rom ".toList ++ (a :: t'))) = "from ".toList ++ (a :: t') from rfl]
      rw [matchFromHere_selstar h1 hw]

theorem tryBlockRejects_selstar {fields : List Str} {σ : DescOracle} {t : Str}
    {cols : List Str} (h1 : t ≠ []) (hw : ∀ c ∈ t, isWordChar c = true)
    (hσ : σ t = some cols) (hsens : ∃ col ∈ cols, lowerStr col ∈ fields) :
    tryBlockRejects fields σ ("select * from ".toList ++ t) = true := by
  have hdash : '-' ∉ "select * from ".toList ++ t := by
    rw [List.mem_append]
    rintro (hc | hc)
    · exact absurd hc (by decide)
    · exact absurd (hw _ hc) (by decide)
  have hslash : '/' ∉ "select * from ".toList ++ t := by
    rw [List.mem_append]
    rintro (hc | hc)
    · exact absurd hc (by decide)
    · exact absurd (hw _ hc) (by decide)
  simp only [tryBlockRejects]
  rw [cutLineComment_eq_self hdash, removeBlockComments_eq_self hslash]
  rw [show firstSelectCapture ("select * from ".toList ++ t) = some ['*'] from rfl]
  rw [show (match (some ['*'] : Option Str) with
      | none => false
      | some cap =>
          ((splitOnSub [','] cap).map (fun f => lowerStr (pyStrip f))).any
            (projFieldRejects fields σ ("select * from ".toList ++ t)))
      = List.any [['*']] (projFieldRejects fields σ ("select * from ".toList ++ t)) from rfl]
  simp only [List.any_cons, List.any_nil, Bool.or_false]
  simp only [projFieldRejects]
  rw [show pyStrip ((splitOnSub " as ".toList ['*']).headD []) = ['*'] from rfl]
  rw [show pyStrip ((splitOnSub ['.'] ['*']).getLastD []) = ['*'] from rfl]
  simp only [if_true, reduceIte]
  rw [firstFromTable_selstar h1 hw]
  show (match σ (stripBackticks t) with
    | none => true
    | some cols => cols.any fun col => decide (lowerStr col ∈ fields)) = true
  rw [stripBackticks_eq_self hw, hσ]
  show (cols.any fun col => decide (lowerStr col ∈ fields)) = true
  obtain ⟨col, hc, hcf⟩ := hsens
  rw [List.any_eq_true]
  exact ⟨col, hc, by simp [hcf]⟩

/-- C5 (amended): with a word-character sensitive-field configuration
containing the field `f`, the validator rejects (a) every SQL text in which
`f` occurs word-bounded in the whitespace-normalized lower-cased text —
this covers direct projection, `AS` aliases, table qualifiers and
function-call argument lists, where the column name appears literally —
and (b) every canonical `select * from <table>` whose resolved table's
live schema contains a column whose lower-cased name is sensitive.  The
counterexample forces the restriction of (b) to star projections that the
extraction pattern `select\s+(.*?)\s+from` actually matches, i.e. with
whitespace around the `*`. -/
theorem c5_amended_sensitive_projection_rejected (fields : List Str) (σ : DescOracle)
    (f : Str) (hfields : ∀ g ∈ fields, regexFieldOk g = true) (hf : f ∈ fields) :
    (∀ sql, wbSearch f (normLower sql) = true → is_safe_query fields σ sql = .ok false) ∧
    (∀ t cols, t ≠ [] → (∀ c ∈ t, isWordChar c = true) → (∀ c ∈ t, Char.toLower c = c) →
      σ t = some cols → (∃ col ∈ cols, lowerStr col ∈ fields) →
      is_safe_query fields σ ("select * from ".toList ++ t) = .ok false) := by
  constructor
  · intro sql hwb
    simp only [is_safe_query]
    split
    · rfl
    · split
      · rfl
      · split
        · rfl
        · rw [fastFieldScan_hit hfields hf hwb]
  · intro t cols h1 hw hl hσ hsens
    have hws : ∀ c ∈ t, isWs c = false := fun c hc => not_isWs_of_isWordChar (hw c hc)
    simp only [is_safe_query]
    rw [normLower_selstar h1 hws hl]
    split
    · rfl
    · split
      · rfl
      · split
        · rfl
        · obtain ⟨b, hb⟩ := @fastFieldScan_total fields ("select * from ".toList ++ t) hfields
          cases b with
          | true => rw [hb]
          | false =>
              rw [hb]
              show Except.ok (!tryBlockRejects fields σ ("select * from ".toList ++ t))
                = Except.ok false
              rw [tryBlockRejects_selstar h1 hw hσ hsens]
              rfl

/-- C5 witness. -/
theorem c5_amended_sensitive_projection_rejected_witness :
    is_safe_query ["password".toList]
      (fun tn => if tn = "employee".toList
        then some ["id".toList, "password".toList] else none)
      "select max(password) from employee".toList = .ok false ∧
    is_safe_query ["password".toList]
      (fun tn => if tn = "employee".toList
        then some ["id".toList, "password".toList] else none)
      ("select * from ".toList ++ "employee".toList) = .ok false := by
  have h := c5_amended_sensitive_projection_rejected ["password".toList]
    (fun tn => if tn = "employee".toList
      then some ["id".toList, "password".toList] else none)
    "password".toList (by decide) (by decide)
  exact ⟨h.1 "select max(password) from employee".toList (by decide),
    h.2 "employee".toList ["id".toList, "password".toList] (by decide) (by decide)
      (by decide) (by decide) ⟨"password".toList, by decide, by decide⟩⟩

end MCPDB
